import Mathlib

/-!
Verification development for the behavioural risk-scoring and phishing-training
backend (`src/backend`).  Python floats are embedded as exact rationals (`ℚ`),
pandas Series as positional lists, DataFrames as typed row lists with
column-presence flags, fallible functions as `Except String`, and the
SQLite-backed user state machine as explicit state passing.
-/

namespace Spear

/-- The literal `1e-12` used by the normalizer, as an exact rational. -/
def eps : ℚ := 1 / 1000000000000

/-- Embeds `_minmax_series` (src/backend/scoring/risk_score.py, lines 5-22):
empty series are returned as-is; `min_v` and `max_v` are the series min and
max (`xs.foldl min x` is pandas `s.min()` on the nonempty series `x :: xs`);
when `denom = max_v - min_v` is zero the series becomes all zeros; otherwise
each value is rescaled by `(v - min_v) / (denom + 1e-12)`. -/
def minmax_series (s : List ℚ) : List ℚ :=
  match s with
  | [] => []
  | x :: xs =>
    if xs.foldl max x - xs.foldl min x = 0 then
      (x :: xs).map (fun _ => (0 : ℚ))
    else
      (x :: xs).map (fun v =>
        (v - xs.foldl min x) / ((xs.foldl max x - xs.foldl min x) + eps))

/-- Round a rational to the nearest integer, ties to even. -/
def roundHalfEven (x : ℚ) : ℤ :=
  if x - ⌊x⌋ < 1/2 then ⌊x⌋
  else if 1/2 < x - ⌊x⌋ then ⌊x⌋ + 1
  else if ⌊x⌋ % 2 = 0 then ⌊x⌋ else ⌊x⌋ + 1

/-- Binary64 scaling exponent for a nonzero magnitude: `52 - e` in the
normal range `e = ⌊log₂ |q|⌋ ≥ -1022`, clamped to the fixed subnormal
scale `1074` below it. -/
def dscale (q : ℚ) : ℤ := 52 - max (Int.log 2 |q|) (-1022)

/-- The rounded integer significand of `|q|` at that scale. -/
def dmant (q : ℚ) : ℤ := roundHalfEven (|q| * 2 ^ dscale q)

/-- IEEE-754 binary64 rounding of an exact rational: round to nearest, ties
to even, with subnormal underflow; a result of magnitude `≥ 2^1024` is an
overflow to infinity, represented here by the marker value `±2^1024` (none
of the evaluations below reach it).  This gives Python float arithmetic its
semantics: each Python arithmetic operation computes the exact rational
result and rounds it with this function. -/
def roundDouble (q : ℚ) : ℚ :=
  if q = 0 then 0
  else if (2:ℚ) ^ (1024:ℤ) ≤ (dmant q : ℚ) * 2 ^ (-dscale q) then
    (if q < 0 then -((2:ℚ) ^ (1024:ℤ)) else (2:ℚ) ^ (1024:ℤ))
  else if q < 0 then -((dmant q : ℚ) * 2 ^ (-dscale q))
  else (dmant q : ℚ) * 2 ^ (-dscale q)

/-- `_minmax_series` under IEEE binary64 semantics, for claims about exact
float attainment: the series entries are doubles, pandas `s.min()` and
`s.max()` select elements (no arithmetic), and every arithmetic step rounds
— `denom = fl(max - min)`, the zero test is on that rounded difference, the
literal `1e-12` denotes the double nearest `10⁻¹²` (`roundDouble eps`), and
each row computes `fl(fl(v - min) / fl(denom + 1e-12))`.  The exact-ℚ
`minmax_series` above is the right model for the value-flow claims (C1,
C5); this one exposes the rounding of the `+ 1e-12` guard, which the exact
model hides. -/
def minmax_series_fl (s : List ℚ) : List ℚ :=
  match s with
  | [] => []
  | x :: xs =>
    if roundDouble (xs.foldl max x - xs.foldl min x) = 0 then
      (x :: xs).map (fun _ => (0 : ℚ))
    else
      (x :: xs).map (fun v =>
        roundDouble (roundDouble (v - xs.foldl min x) /
          roundDouble (roundDouble (xs.foldl max x - xs.foldl min x) + roundDouble eps)))

/-- One input row of the frame handed to `compute_risk_score`.  The five
numeric columns it may read are carried per row; whether a column actually
exists in the frame is recorded in `RiskFrame`. -/
structure RiskRow where
  anomaly_score : ℚ
  failed_login_ratio : ℚ
  login_count : ℚ
  unique_src_hosts : ℚ
  unique_dst_hosts : ℚ
deriving DecidableEq

/-- Input DataFrame for `compute_risk_score`: rows plus column-presence flags
(the code tests e.g. `"anomaly_score" in out.columns`; a pandas column is
present or absent for the whole frame).  When a flag is `false` the
corresponding per-row field is junk that the function never uses. -/
structure RiskFrame where
  rows : List RiskRow
  hasAnomaly : Bool := true
  hasFailed : Bool := true
  hasLogin : Bool := true
  hasSrc : Bool := true
  hasDst : Bool := true

/-- Output row of `compute_risk_score` (the added columns). -/
structure RiskRecord where
  ml_anomaly_score : ℚ
  rule_based_score : ℚ
  final_risk_score : ℚ
  risk_reason : String
deriving DecidableEq

/-- The per-row reason cascade (lines 136-148).  The four masks
(`both_high`, `ml_dom`, `rb_dom`, `low`) partition the rows, so the
object-dtype series is fully assigned and the trailing
`.fillna("No strong evidence of deviation")` replaces nothing. -/
def reasonOf (ml rb : ℚ) : String :=
  if ml > 7/10 ∧ rb > 7/10 then
    "Combined statistical anomaly and rule-based deviations"
  else if ml ≥ rb ∧ ml > 6/10 then
    "Behavior deviates significantly from historical baseline"
  else if rb > ml ∧ rb > 6/10 then
    "Multiple behavioral deviations detected (frequency, access pattern, failure rate)"
  else
    "No strong evidence of deviation"

/-- pandas `Series.fillna(dflt)` replaces only missing (NaN/None) entries.
A column of concrete strings has none, so on such a column `fillna` is the
identity; the default value is ignored.  This models the call at
src/backend/scoring/risk_score.py line 160. -/
def fillna_str (s : String) (_dflt : String) : String := s

/-- Descending comparison on `final_risk_score` used for the output sort
(`sort_values("final_risk_score", ascending=False)`). -/
def riskGE (a b : RiskRecord) : Prop :=
  b.final_risk_score ≤ a.final_risk_score

instance : DecidableRel riskGE := fun a b =>
  inferInstanceAs (Decidable (b.final_risk_score ≤ a.final_risk_score))

/-- The ML-score block of `compute_risk_score` (lines 62-95): derive
`ml_anomaly_score` from the `anomaly_score` column when no override is
supplied (missing column → the documented `ValueError`); an empty provided
Series becomes an all-zero column; otherwise the provided Series is
re-normalized.  Modelled positionally: the label-realignment `reindex`
branch for a mismatched index is outside this positional model, so theorems
about overrides assume an aligned index. -/
def mlScoreOf (df : RiskFrame) (ml_anomaly_score : Option (List ℚ)) :
    Except String (List ℚ) :=
  match ml_anomaly_score with
  | none =>
    if df.hasAnomaly then
      .ok (minmax_series (df.rows.map RiskRow.anomaly_score))
    else
      .error "compute_risk_score: 'anomaly_score' column is required when ml_anomaly_score is not provided"
  | some s =>
    if s.length = 0 then .ok (List.replicate df.rows.length 0)
    else .ok (minmax_series s)

/-- The rule-based-score block of `compute_risk_score` (lines 97-126):
when no override is supplied, a weighted sum `0.4·failed + 0.2·login +
0.2·src + 0.2·dst` of the four independently min-max-normalized columns
(missing columns default to an all-zero column); an empty provided Series
becomes zeros; otherwise the provided Series is re-normalized. -/
def ruleScoreOf (df : RiskFrame) (rule_based_score : Option (List ℚ)) :
    List ℚ :=
  let n := df.rows.length
  match rule_based_score with
  | none =>
    let failed := if df.hasFailed then df.rows.map RiskRow.failed_login_ratio
                  else List.replicate n 0
    let login_cnt := if df.hasLogin then df.rows.map RiskRow.login_count
                     else List.replicate n 0
    let src_hosts := if df.hasSrc then df.rows.map RiskRow.unique_src_hosts
                     else List.replicate n 0
    let dst_hosts := if df.hasDst then df.rows.map RiskRow.unique_dst_hosts
                     else List.replicate n 0
    let failed_n := minmax_series failed
    let login_n := minmax_series login_cnt
    let src_n := minmax_series src_hosts
    let dst_n := minmax_series dst_hosts
    List.zipWith (· + ·)
      (List.zipWith (· + ·) (failed_n.map (fun v => 2/5 * v))
        (login_n.map (fun v => 1/5 * v)))
      (List.zipWith (· + ·) (src_n.map (fun v => 1/5 * v))
        (dst_n.map (fun v => 1/5 * v)))
  | some s =>
    if s.length = 0 then List.replicate n 0
    else minmax_series s

/-- One output row from a zipped (ml, rule) score pair: the 50/50 blend
(line 129) and the reason cascade (lines 131-148). -/
def blendRecord (p : ℚ × ℚ) : RiskRecord :=
  { ml_anomaly_score := p.1
    rule_based_score := p.2
    final_risk_score := 1/2 * p.1 + 1/2 * p.2
    risk_reason := reasonOf p.1 p.2 }

/-- The single-user special case (lines 156-162): for a one-row frame the
code calls `fillna` with the forced reason on the `risk_reason` column —
but that column was fully assigned at line 148, so the `fillna` replaces
nothing. -/
def singleUserFix (n : ℕ) (records : List RiskRecord) : List RiskRecord :=
  if n = 1 then
    records.map (fun r =>
      { r with risk_reason := fillna_str r.risk_reason "Single-user data: insufficient variation to assess deviation" })
  else records

/-- Embeds `compute_risk_score` (src/backend/scoring/risk_score.py,
lines 25-164): typed-empty result on an empty frame; otherwise the ML and
rule-based score columns (blocks above), the 50/50 blend with per-row
reasons, the single-user `fillna`, and the final sort descending by
`final_risk_score`. -/
def compute_risk_score (df : RiskFrame)
    (rule_based_score : Option (List ℚ) := none)
    (ml_anomaly_score : Option (List ℚ) := none) :
    Except String (List RiskRecord) :=
  if df.rows.length = 0 then .ok [] else
  match mlScoreOf df ml_anomaly_score with
  | .error e => .error e
  | .ok mlL =>
    let records := (mlL.zip (ruleScoreOf df rule_based_score)).map blendRecord
    .ok ((singleUserFix df.rows.length records).insertionSort riskGE)

/-- The fixed state enumeration `STATES` (src/backend/training/user_state.py,
lines 39-47). -/
inductive UState where
  | CLEAN
  | PHISH_SENT
  | PHISH_CLICKED
  | MICRO_TRAINING_REQUIRED
  | MICRO_TRAINING_COMPLETED
  | MANDATORY_TRAINING_REQUIRED
  | COMPLIANT
deriving DecidableEq

/-- The string stored in the database for each state. -/
def stateName : UState → String
  | .CLEAN => "CLEAN"
  | .PHISH_SENT => "PHISH_SENT"
  | .PHISH_CLICKED => "PHISH_CLICKED"
  | .MICRO_TRAINING_REQUIRED => "MICRO_TRAINING_REQUIRED"
  | .MICRO_TRAINING_COMPLETED => "MICRO_TRAINING_COMPLETED"
  | .MANDATORY_TRAINING_REQUIRED => "MANDATORY_TRAINING_REQUIRED"
  | .COMPLIANT => "COMPLIANT"

/-- The transition table `TRANSITIONS` (user_state.py, lines 50-61), as a
lookup `(current_state, trigger) → new_state`.  Triggers arrive from external
callers as arbitrary strings, so they stay `String`. -/
def TRANSITIONS (current : UState) (trigger : String) : Option UState :=
  match current, trigger with
  | .CLEAN, "email_sent" => some .PHISH_SENT
  | .PHISH_SENT, "phish_clicked" => some .PHISH_CLICKED
  | .PHISH_SENT, "phish_reported" => some .COMPLIANT
  | .PHISH_SENT, "phish_ignored" => some .COMPLIANT
  | .PHISH_CLICKED, "micro_training_assigned" => some .MICRO_TRAINING_REQUIRED
  | .MICRO_TRAINING_REQUIRED, "micro_completed" => some .MICRO_TRAINING_COMPLETED
  | .MICRO_TRAINING_COMPLETED, "mandatory_assigned" => some .MANDATORY_TRAINING_REQUIRED
  | .MANDATORY_TRAINING_REQUIRED, "mandatory_completed" => some .COMPLIANT
  | .COMPLIANT, "email_sent" => some .PHISH_SENT
  | _, _ => none

/-- One row of the append-only `state_transitions` audit table.  The
wall-clock `timestamp` column is real time, not modelled; no claim depends
on its value. -/
structure LogEntry where
  user_id : String
  from_state : UState
  to_state : UState
  trigger : String
  reason : String
deriving DecidableEq

/-- The persistent store behind `UserStateManager`: the `user_states` table as
a map from user id to current state (`none` = no row yet) and the
`state_transitions` table as an append-only list. -/
structure MachineState where
  states : String → Option UState
  log : List LogEntry

/-- A freshly created database: no user rows, no audit entries. -/
def emptyMachine : MachineState := ⟨fun _ => none, []⟩

/-- `UserStateManager.get_state` (lines 100-106): the user's row, or `CLEAN`
when absent. -/
def get_state (st : MachineState) (user_id : String) : UState :=
  (st.states user_id).getD .CLEAN

/-- The SQL upsert on `user_states` (lines 182-187). -/
def upsert (st : MachineState) (user_id : String) (s : UState) : MachineState :=
  { st with states := fun u => if u = user_id then some s else st.states u }

/-- The dict returned by `UserStateManager.transition`.  The rejection dict
carries no `reason` key, hence `Option String`. -/
structure TransitionResult where
  user_id : String
  from_state : UState
  to_state : UState
  trigger : String
  reason : Option String
  success : Bool
  message : String
deriving DecidableEq

/-- Embeds `UserStateManager.transition` (lines 152-224) with explicit fuel
for the recursive auto-chain calls.  The body: look up
`(current_state, trigger)`; if absent return the `success=False` dict and
change nothing; otherwise upsert the state row, append one audit entry,
build the result for this hop, then — after the result is built — self-call
for the auto-chains into `PHISH_CLICKED` and `MICRO_TRAINING_COMPLETED`,
discarding the chained results.  The Firestore mirror is fire-and-forget
with every exception swallowed, so it has no effect on the store modelled
here. -/
def transitionFuel :
    ℕ → MachineState → String → String → String → MachineState × TransitionResult
  | 0, st, user_id, trigger, _reason =>
      -- never reached with the fuel used by `transition`: the table chains
      -- at most twice (see `transitionFuel_stable`)
      (st, ⟨user_id, get_state st user_id, get_state st user_id, trigger,
            none, false, "recursion limit"⟩)
  | fuel + 1, st, user_id, trigger, reason =>
      let current := get_state st user_id
      match TRANSITIONS current trigger with
      | none =>
        (st, ⟨user_id, current, current, trigger, none, false,
              "No transition from '" ++ stateName current ++ "' with trigger '"
                ++ trigger ++ "'"⟩)
      | some new_state =>
        let st2 : MachineState :=
          { upsert st user_id new_state with
            log := st.log ++ [⟨user_id, current, new_state, trigger, reason⟩] }
        let result : TransitionResult :=
          ⟨user_id, current, new_state, trigger, some reason, true,
           "Transitioned from '" ++ stateName current ++ "' to '"
             ++ stateName new_state ++ "'"⟩
        let st3 :=
          if new_state = .PHISH_CLICKED then
            (transitionFuel fuel st2 user_id "micro_training_assigned"
              "Auto-assigned on phish click").1
          else st2
        let st4 :=
          if new_state = .MICRO_TRAINING_COMPLETED then
            (transitionFuel fuel st3 user_id "mandatory_assigned"
              "Auto-assigned after micro-training").1
          else st3
        (st4, result)

/-- `UserStateManager.transition`: fuel 3 is enough for every input because
the transition table admits auto-chains of depth at most 2
(`transitionFuel_stable` shows any fuel ≥ 2 computes the same function). -/
def transition (st : MachineState) (user_id trigger reason : String) :
    MachineState × TransitionResult :=
  transitionFuel 3 st user_id trigger reason

/-- A Python value as it can appear in the raw `success` column: a bool, a
missing value (`None`, or a `NaN` float — `pd.isna` is true of both, so the
line-74 guard catches them), a string, a finite number (int or float, with
its exact value), or an infinite float. -/
inductive PyVal where
  | bool (b : Bool)
  | null
  | str (s : String)
  | num (q : ℚ)
  | numInf (neg : Bool)
deriving DecidableEq

/-- Value of a string of decimal digits. -/
def digitsToNat (cs : List Char) : ℕ :=
  cs.foldl (fun n c => 10 * n + (c.toNat - 48)) 0

/-- What CPython `float(s)` returns when it succeeds: a finite value given
symbolically as `(-1)^neg · mant · 10^dexp` (before rounding to binary64),
an infinity, or a NaN. -/
inductive PyFloat where
  | finite (neg : Bool) (mant : ℕ) (dexp : ℤ)
  | inf (neg : Bool)
  | nan
deriving DecidableEq

/-- Optional leading sign of a numeric literal. -/
def parseSign : List Char → Bool × List Char
  | '-' :: rest => (true, rest)
  | '+' :: rest => (false, rest)
  | cs => (false, cs)

/-- Split off the maximal run of decimal digits and underscores. -/
def takeDigitsU (cs : List Char) : List Char × List Char :=
  (cs.takeWhile (fun c => c.isDigit || c == '_'), cs.dropWhile (fun c => c.isDigit || c == '_'))

/-- No two adjacent underscores. -/
def noAdjUnderscore : List Char → Bool
  | '_' :: '_' :: _ => false
  | _ :: cs => noAdjUnderscore cs
  | [] => true

/-- A valid digit group with PEP-515 underscore separators: nonempty, starts
and ends with a digit, and every underscore sits between digits.  (The group
contains only digits and underscores by construction.) -/
def uGroupValid (grp : List Char) : Bool :=
  match grp with
  | [] => false
  | c :: cs =>
    c.isDigit &&
    (match (c :: cs).getLast? with
     | some d => d.isDigit
     | none => false) &&
    noAdjUnderscore (c :: cs)

/-- The optional exponent part after the mantissa: nothing (exponent 0), or
`e`/`E`, an optional sign and an underscore-separated digit group consuming
the rest of the string. -/
def parseExpPart (cs : List Char) : Option ℤ :=
  match cs with
  | [] => some 0
  | 'e' :: r | 'E' :: r =>
    let sg := parseSign r
    let g := takeDigitsU sg.2
    if uGroupValid g.1 && g.2.isEmpty then
      let k : ℤ := (digitsToNat (g.1.filter Char.isDigit) : ℤ)
      some (if sg.1 then -k else k)
    else none
  | _ => none

/-- A model of CPython `float(s)` on the stripped, lowercased text the
coercion hands it (line 76 applies `.strip().lower()` first): an optional
sign followed by `inf`, `infinity`, `nan`, or a decimal literal — digit
groups with PEP-515 underscore separators, an optional fraction and an
optional exponent, with digits required on at least one side of the point.
The finite result is kept symbolically as mantissa and decimal exponent.
Non-ASCII decimal digits, which CPython's `float` also accepts, are outside
this model; the unrecognized-value clause of C7 is therefore stated for
printable-ASCII strings, where this grammar is exactly `float()`'s. -/
def parseFloat (s : String) : Option PyFloat :=
  let sg := parseSign s.toList
  let neg := sg.1
  let cs1 := sg.2
  if cs1 == "inf".toList || cs1 == "infinity".toList then some (.inf neg)
  else if cs1 == "nan".toList then some .nan
  else
    let ig := takeDigitsU cs1
    match ig.2 with
    | '.' :: r =>
      let fg := takeDigitsU r
      if (ig.1.isEmpty || uGroupValid ig.1) &&
         (fg.1.isEmpty || uGroupValid fg.1) &&
         !(ig.1.isEmpty && fg.1.isEmpty) then
        match parseExpPart fg.2 with
        | some k =>
          some (.finite neg (digitsToNat ((ig.1 ++ fg.1).filter Char.isDigit))
            (k - ((fg.1.filter Char.isDigit).length : ℤ)))
        | none => none
      else none
    | rest =>
      if uGroupValid ig.1 then
        match parseExpPart rest with
        | some k => some (.finite neg (digitsToNat (ig.1.filter Char.isDigit)) k)
        | none => none
      else none

/-- `bool(float(s))` for a parsed value.  Infinities and NaN are truthy
(`bool(float("nan"))` is `True`).  A finite decimal value `±mant·10^dexp`
is truthy exactly when it rounds to a nonzero binary64 double, i.e. when
`|value| > 2^-1075`: below the midpoint of the smallest subnormal the
conversion underflows to `0.0` (ties round to the even candidate `0`), so
e.g. `float("1e-400")` is `0.0` and falsy while `float("5e-324")` is the
smallest subnormal and truthy. -/
def pyFloatTruthy : PyFloat → Bool
  | .finite _ mant dexp =>
    mant != 0 &&
      (match dexp with
       | .ofNat _ => true
       | .negSucc k => decide ((10:ℕ) ^ (k + 1) < mant * 2 ^ 1075))
  | .inf _ => true
  | .nan => true

/-- The truthy string encodings recognised at feature_extractor.py line 77. -/
def truthySet : List String := ["true", "t", "1", "yes", "y"]

/-- The falsy string encodings recognised at feature_extractor.py line 79. -/
def falsySet : List String := ["false", "f", "0", "no", "n"]

/-- Embeds the inner `_to_bool` of `_coerce_success_to_bool`
(feature_extractor.py, lines 71-87).  Bools pass through; missing values
(including NaN floats) are `False` via the `pd.isna` guard; strings are
stripped, lowercased, tested against the two literal sets, then handed to
`float()` and converted with `bool` (`pyFloatTruthy`); anything `float()`
rejects lands in the `except` branch and is `False`.  For a finite number
Python takes `str(x)` through the same path: the only numeric strings in
the literal sets are `"1"` and `"0"`, and `float(str(x))` round-trips a
finite double exactly, so every finite-numeric path agrees with `bool(x)`,
i.e. `x ≠ 0`; `str(±inf)` is `"±inf"`, which `float()` maps back to an
infinity, so infinite floats are truthy.  The embedding is a total
`Bool`-valued function: the final `except` branch in the source returns
`False` instead of raising. -/
def _to_bool : PyVal → Bool
  | .bool b => b
  | .null => false
  | .str s0 =>
    let s := s0.trim.toLower
    if truthySet.contains s then true
    else if falsySet.contains s then false
    else
      match parseFloat s with
      | some pf => pyFloatTruthy pf
      | none => false
  | .num q => q != 0
  | .numInf _ => true

/-- `_coerce_success_to_bool` maps `_to_bool` over the whole column. -/
def _coerce_success_to_bool (series : List PyVal) : List Bool :=
  series.map _to_bool

/-- One Event/Auth Record as produced by `load_authentication_data`: the
`success` column already coerced to `Bool`, the `timestamp` parsed or kept
as the NaT marker (`none`). -/
structure AuthEvent where
  user : String
  src_host : String
  dst_host : String
  timestamp : Option ℚ
  success : Bool
deriving DecidableEq

/-- One output row of `extract_user_features`. -/
structure FeatureRow where
  user : String
  login_count : ℕ
  failed_login_ratio : ℚ
  unique_src_hosts : ℕ
  unique_dst_hosts : ℕ
deriving DecidableEq

/-- Embeds `extract_user_features` (feature_extractor.py, lines 161-212).
`groupby("user")` groups rows by exact string identity with group keys
sorted ascending; per group: `login_count` = group size, `failed_count` =
count of `success == False`, `unique_*_hosts` = `nunique`; then
`failed_login_ratio = failed_count / login_count` (`fillna(0.0)` can only
matter for an impossible empty group — `ℚ` division already yields 0
there), clipped to `[0, 1]`; the trailing `sort_index()` re-sorts the
already-sorted keys.  The `_validate_required_columns` guard cannot fire in
this typed embedding, where the five columns exist by construction. -/
def extract_user_features (df : List AuthEvent) : List FeatureRow :=
  let users := ((df.map AuthEvent.user).dedup).insertionSort (· ≤ ·)
  users.map (fun u =>
    let g := df.filter (fun e => e.user == u)
    let login_count := g.length
    let failed_count := (g.filter (fun e => !e.success)).length
    let ratio : ℚ := (failed_count : ℚ) / (login_count : ℚ)
    { user := u
      login_count := login_count
      failed_login_ratio := min (max ratio 0) 1
      unique_src_hosts := ((g.map AuthEvent.src_host).dedup).length
      unique_dst_hosts := ((g.map AuthEvent.dst_host).dedup).length })

/-- One row of the feature table handed to `run_isolation_forest`: each of
the four required columns holds `some q` when `pd.to_numeric` converts the
entry and `none` when it cannot (`errors="coerce"` → NaN). -/
structure IFRow where
  login_count : Option ℚ
  unique_src_hosts : Option ℚ
  unique_dst_hosts : Option ℚ
  failed_login_ratio : Option ℚ
deriving DecidableEq

/-- Embeds `run_isolation_forest` (src/backend/models/isolation_forest.py).
The StandardScaler + IsolationForest composite is an external library
computation (seeded RNG, irrational arithmetic) abstracted as the parameter
`decisionF` — the fitted model's `decision_function` over the scaled matrix.
Everything the function itself does is embedded: the required-column check
(vacuous here, the typed rows carry all four columns), the empty-input
check, the non-numeric check in `required_cols` order, and negating the
decision function into `anomaly_score`. -/
def run_isolation_forest (decisionF : List (List ℚ) → List ℚ)
    (features : List IFRow) : Except String (List (IFRow × ℚ)) :=
  if features.length = 0 then
    .error "Isolation Forest: input features DataFrame is empty"
  else
    let non_numeric : List String :=
      (if features.any (fun r => r.login_count.isNone) then ["login_count"] else [])
      ++ (if features.any (fun r => r.unique_src_hosts.isNone) then ["unique_src_hosts"] else [])
      ++ (if features.any (fun r => r.unique_dst_hosts.isNone) then ["unique_dst_hosts"] else [])
      ++ (if features.any (fun r => r.failed_login_ratio.isNone) then ["failed_login_ratio"] else [])
    if non_numeric ≠ [] then
      .error ("Isolation Forest: expected numeric values in columns, but found non-numeric entries in: "
        ++ toString non_numeric ++ ".")
    else
      let X := features.map (fun r =>
        [r.login_count.getD 0, r.unique_src_hosts.getD 0,
         r.unique_dst_hosts.getD 0, r.failed_login_ratio.getD 0])
      let scores := (decisionF X).map Neg.neg
      .ok (features.zip scores)

/-- Placeholder micro-training URL (training_decision.py, line 36). -/
def _MICRO_TRAINING_URL : String := "https://example.com/micro-training-placeholder"

/-- Placeholder mandatory-training URL (training_decision.py, line 37). -/
def _MANDATORY_TRAINING_URL : String := "https://example.com/mandatory-training-placeholder"

/-- One input row for `decide_training_actions`: `user` plus the
`risk_score` cell after `pd.to_numeric(..., errors="coerce")` — `none`
models a non-numeric or missing value (NaN). -/
structure TDRow where
  user : String
  risk_score : Option ℚ
deriving DecidableEq

/-- One output row of `decide_training_actions`. -/
structure TDOut where
  user : String
  risk_score : ℚ
  training_action : String
  micro_training_url : String
  mandatory_training_url : String
deriving DecidableEq

/-- The per-row effect of the vectorised masks in `decide_training_actions`
(training_decision.py, lines 94-110): `action` starts as `"NONE"`, the
`cond_micro` mask (`0.3 <= score < 0.6`) overwrites with `"MICRO"`, the
`cond_mandatory` mask (`score >= 0.6`) overwrites with `"MANDATORY"`, and
each URL column starts empty and is filled exactly on its own mask. -/
def tdAnnotate (r : TDRow) : TDOut :=
  let q := r.risk_score.getD 0
  let cond_micro := 3/10 ≤ q ∧ q < 6/10
  let cond_mandatory := 6/10 ≤ q
  let a0 := "NONE"
  let a1 := if cond_micro then "MICRO" else a0
  let a2 := if cond_mandatory then "MANDATORY" else a1
  { user := r.user
    risk_score := q
    training_action := a2
    micro_training_url := if cond_micro then _MICRO_TRAINING_URL else ""
    mandatory_training_url := if cond_mandatory then _MANDATORY_TRAINING_URL else "" }

/-- Embeds `decide_training_actions` (training_decision.py, lines 40-113):
the required-columns check is vacuous in the typed embedding; the coercion
check counts NaN cells and fails naming that count; then the per-row
annotation above. -/
def decide_training_actions (df : List TDRow) : Except String (List TDOut) :=
  let nBad := (df.filter (fun r => r.risk_score.isNone)).length
  if nBad ≠ 0 then
    .error ("training_decision: 'risk_score' contains " ++ toString nBad
      ++ " non-numeric or missing value(s)")
  else
    .ok (df.map tdAnnotate)

/-! ### Helper lemmas -/

theorem foldl_min_le_init (l : List ℚ) (a : ℚ) : l.foldl min a ≤ a := by
  induction l generalizing a with
  | nil => exact le_refl a
  | cons x xs ih =>
    calc (x :: xs).foldl min a = xs.foldl min (min a x) := rfl
    _ ≤ min a x := ih _
    _ ≤ a := min_le_left _ _

theorem le_foldl_max_init (l : List ℚ) (a : ℚ) : a ≤ l.foldl max a := by
  induction l generalizing a with
  | nil => exact le_refl a
  | cons x xs ih =>
    calc a ≤ max a x := le_max_left _ _
    _ ≤ xs.foldl max (max a x) := ih _
    _ = (x :: xs).foldl max a := rfl

theorem foldl_min_le_mem {v : ℚ} :
    ∀ (xs : List ℚ) (x : ℚ), v ∈ x :: xs → xs.foldl min x ≤ v := by
  intro xs
  induction xs with
  | nil =>
    intro x h
    rcases List.mem_singleton.mp h with rfl
    exact le_refl v
  | cons y ys ih =>
    intro x h
    have hfold : (y :: ys).foldl min x = ys.foldl min (min x y) := rfl
    rcases List.mem_cons.mp h with rfl | h2
    · rw [hfold]
      calc ys.foldl min (min v y) ≤ min v y := foldl_min_le_init _ _
      _ ≤ v := min_le_left _ _
    · rcases List.mem_cons.mp h2 with rfl | h3
      · rw [hfold]
        calc ys.foldl min (min x v) ≤ min x v := foldl_min_le_init _ _
        _ ≤ v := min_le_right _ _
      · rw [hfold]
        exact ih (min x y) (List.mem_cons_of_mem _ h3)

theorem le_foldl_max_mem {v : ℚ} :
    ∀ (xs : List ℚ) (x : ℚ), v ∈ x :: xs → v ≤ xs.foldl max x := by
  intro xs
  induction xs with
  | nil =>
    intro x h
    rcases List.mem_singleton.mp h with rfl
    exact le_refl v
  | cons y ys ih =>
    intro x h
    have hfold : (y :: ys).foldl max x = ys.foldl max (max x y) := rfl
    rcases List.mem_cons.mp h with rfl | h2
    · rw [hfold]
      calc v ≤ max v y := le_max_left _ _
      _ ≤ ys.foldl max (max v y) := le_foldl_max_init _ _
    · rcases List.mem_cons.mp h2 with rfl | h3
      · rw [hfold]
        calc v ≤ max x v := le_max_right _ _
        _ ≤ ys.foldl max (max x v) := le_foldl_max_init _ _
      · rw [hfold]
        exact ih (max x y) (List.mem_cons_of_mem _ h3)

theorem eps_pos : (0 : ℚ) < eps := by norm_num [eps]

/-- In the exact-rational model every value produced by the normalizer lies
in `[0, 1)`: the no-variation branch yields zeros, and the division branch
has numerator in `[0, denom]` and denominator `denom + 1e-12 > denom`.
(This bound is exact-arithmetic only: under binary64 rounding the divisor
can collapse to `denom` and the quotient reach `1.0` — see
`minmax_series_fl` and the C10 theorems.) -/
theorem minmax_series_mem_bounds {s : List ℚ} {y : ℚ}
    (hy : y ∈ minmax_series s) : 0 ≤ y ∧ y < 1 := by
  cases s with
  | nil => simp [minmax_series] at hy
  | cons x xs =>
    by_cases hd : xs.foldl max x - xs.foldl min x = 0
    · rw [minmax_series, if_pos hd] at hy
      obtain ⟨v, hv, hy0⟩ := List.mem_map.mp hy
      constructor
      · rw [← hy0]
      · rw [← hy0]; norm_num
    · rw [minmax_series, if_neg hd] at hy
      obtain ⟨v, hv, hy0⟩ := List.mem_map.mp hy
      have hminx : xs.foldl min x ≤ x := foldl_min_le_mem xs x (List.mem_cons_self x xs)
      have hxmax : x ≤ xs.foldl max x := le_foldl_max_mem xs x (List.mem_cons_self x xs)
      have hdpos : 0 < xs.foldl max x - xs.foldl min x :=
        lt_of_le_of_ne (by linarith) (Ne.symm hd)
      have hminv : xs.foldl min x ≤ v := foldl_min_le_mem xs x hv
      have hvmax : v ≤ xs.foldl max x := le_foldl_max_mem xs x hv
      have heps := eps_pos
      constructor
      · rw [← hy0]
        exact div_nonneg (by linarith) (by linarith)
      · rw [← hy0, div_lt_one (by linarith)]
        linarith

theorem singleUserFix_eq (n : ℕ) (l : List RiskRecord) : singleUserFix n l = l := by
  rw [singleUserFix]
  split
  · exact List.map_id l
  · rfl

/-! ### Claim theorems -/

theorem int_log2_eq {r : ℚ} {e : ℤ} (hr : 0 < r)
    (h1 : (2:ℚ) ^ e ≤ r) (h2 : r < (2:ℚ) ^ (e + 1)) : Int.log 2 r = e := by
  have hb : (1:ℕ) < 2 := by norm_num
  have hcast : (((2:ℕ)):ℚ) = (2:ℚ) := by norm_num
  refine le_antisymm ?_ ?_
  · have hlt := (Int.lt_zpow_iff_log_lt hb hr).mp (by rw [hcast]; exact h2)
    exact Int.lt_add_one_iff.mp hlt
  · exact (Int.zpow_le_iff_le_log hb hr).mp (by rw [hcast]; exact h1)

theorem roundHalfEven_down {x : ℚ} {n : ℤ} (h1 : (n:ℚ) ≤ x) (h2 : x < (n:ℚ) + 1/2) :
    roundHalfEven x = n := by
  have hf : ⌊x⌋ = n := Int.floor_eq_iff.mpr ⟨h1, by linarith⟩
  rw [roundHalfEven, hf, if_pos (by linarith)]

theorem roundHalfEven_up {x : ℚ} {n : ℤ} (h1 : (n:ℚ) + 1/2 < x) (h2 : x < (n:ℚ) + 1) :
    roundHalfEven x = n + 1 := by
  have hf : ⌊x⌋ = n := Int.floor_eq_iff.mpr ⟨by linarith, by linarith⟩
  rw [roundHalfEven, hf, if_neg (by linarith), if_pos (by linarith)]

/-- Evaluation rule for `roundDouble` when the scaled magnitude rounds
down: `e` is the binade of `q` and `n` the floor of the scaled value. -/
theorem roundDouble_eq_down {q : ℚ} {e n : ℤ}
    (hq : 0 < q) (h1 : (2:ℚ) ^ e ≤ q) (h2 : q < (2:ℚ) ^ (e + 1)) (he : -1022 ≤ e)
    (hn1 : (n:ℚ) ≤ q * 2 ^ ((52:ℤ) - e)) (hn2 : q * 2 ^ ((52:ℤ) - e) < (n:ℚ) + 1/2)
    (hov : (n:ℚ) * 2 ^ (-((52:ℤ) - e)) < 2 ^ (1024:ℤ)) :
    roundDouble q = (n:ℚ) * 2 ^ (-((52:ℤ) - e)) := by
  have habs : |q| = q := abs_of_pos hq
  have hlog : Int.log 2 |q| = e := by rw [habs]; exact int_log2_eq hq h1 h2
  have hs : dscale q = 52 - e := by rw [dscale, hlog, max_eq_left he]
  have hm : dmant q = n := by
    rw [dmant, habs, hs]
    exact roundHalfEven_down hn1 hn2
  rw [roundDouble, if_neg (ne_of_gt hq), hm, hs, if_neg (not_le.mpr hov),
    if_neg (not_lt.mpr hq.le)]

/-- Evaluation rule for `roundDouble` when the scaled magnitude rounds up. -/
theorem roundDouble_eq_up {q : ℚ} {e n : ℤ}
    (hq : 0 < q) (h1 : (2:ℚ) ^ e ≤ q) (h2 : q < (2:ℚ) ^ (e + 1)) (he : -1022 ≤ e)
    (hn1 : (n:ℚ) + 1/2 < q * 2 ^ ((52:ℤ) - e)) (hn2 : q * 2 ^ ((52:ℤ) - e) < (n:ℚ) + 1)
    (hov : ((n + 1 : ℤ):ℚ) * 2 ^ (-((52:ℤ) - e)) < 2 ^ (1024:ℤ)) :
    roundDouble q = ((n + 1 : ℤ):ℚ) * 2 ^ (-((52:ℤ) - e)) := by
  have habs : |q| = q := abs_of_pos hq
  have hlog : Int.log 2 |q| = e := by rw [habs]; exact int_log2_eq hq h1 h2
  have hs : dscale q = 52 - e := by rw [dscale, hlog, max_eq_left he]
  have hm : dmant q = n + 1 := by
    rw [dmant, habs, hs]
    exact roundHalfEven_up hn1 hn2
  rw [roundDouble, if_neg (ne_of_gt hq), hm, hs, if_neg (not_le.mpr hov),
    if_neg (not_lt.mpr hq.le)]

theorem roundDouble_zero : roundDouble 0 = 0 := by
  rw [roundDouble, if_pos rfl]

theorem roundDouble_one : roundDouble 1 = 1 := by
  have h := roundDouble_eq_down (q := 1) (e := 0) (n := 4503599627370496)
    (by norm_num) (by norm_num) (by norm_num) (by norm_num)
    (by norm_num) (by norm_num) (by norm_num)
  rw [h]; norm_num

theorem roundDouble_100000 : roundDouble 100000 = 100000 := by
  have h := roundDouble_eq_down (q := 100000) (e := 16) (n := 6871947673600000)
    (by norm_num) (by norm_num) (by norm_num) (by norm_num)
    (by norm_num) (by norm_num) (by norm_num)
  rw [h]; norm_num

/-- The binary64 value of the literal `1e-12`: `4951760157141521 · 2⁻⁹²`. -/
theorem roundDouble_eps : roundDouble eps = 4951760157141521 / 2 ^ 92 := by
  have h := roundDouble_eq_down (q := eps) (e := -40) (n := 4951760157141521)
    (by norm_num [eps]) (by norm_num [eps]) (by norm_num [eps]) (by norm_num)
    (by norm_num [eps]) (by norm_num [eps]) (by norm_num)
  rw [h]; norm_num

/-- At magnitude `10⁵` the double `1e-12` is under half an ulp (`2⁻³⁶ ≈
1.45·10⁻¹¹`), so `100000 + 1e-12` rounds back to `100000`. -/
theorem roundDouble_large_plus :
    roundDouble (100000 + 4951760157141521 / 2 ^ 92) = 100000 := by
  have h := roundDouble_eq_down (q := 100000 + 4951760157141521 / 2 ^ 92)
    (e := 16) (n := 6871947673600000)
    (by norm_num) (by norm_num) (by norm_num) (by norm_num)
    (by norm_num) (by norm_num) (by norm_num)
  rw [h]; norm_num

/-- At magnitude `1` the ulp is `2⁻⁵²`, so `1 + 1e-12` lands `≈ 4503.6` ulps
above `1` and rounds (up) to a strictly larger double. -/
theorem roundDouble_one_plus :
    roundDouble (1 + 4951760157141521 / 2 ^ 92) = 4503599627375000 / 2 ^ 52 := by
  have h := roundDouble_eq_up (q := 1 + 4951760157141521 / 2 ^ 92)
    (e := 0) (n := 4503599627374999)
    (by norm_num) (by norm_num) (by norm_num) (by norm_num)
    (by norm_num) (by norm_num) (by norm_num)
  rw [h]; norm_num

theorem roundDouble_ratio :
    roundDouble (1 / (4503599627375000 / 2 ^ 52)) = 9007199254731984 / 2 ^ 53 := by
  have h := roundDouble_eq_down (q := 1 / (4503599627375000 / 2 ^ 52))
    (e := -1) (n := 9007199254731984)
    (by norm_num) (by norm_num) (by norm_num) (by norm_num)
    (by norm_num) (by norm_num) (by norm_num)
  rw [h]; norm_num

/-- Float evaluation of the normalizer on the wide series `[0, 100000]`:
the divisor rounds to `max - min` itself and the maximum normalizes to
exactly `1.0` (matches CPython: `100000.0/(100000.0 + 1e-12) == 1.0`). -/
theorem minmax_fl_large : minmax_series_fl [(0:ℚ), 100000] = [0, 1] := by
  simp only [minmax_series_fl, List.foldl_cons, List.foldl_nil]
  rw [show max (0:ℚ) 100000 = 100000 from max_eq_right (by norm_num),
      show min (0:ℚ) 100000 = 0 from min_eq_left (by norm_num),
      show (100000:ℚ) - 0 = 100000 from by norm_num,
      roundDouble_100000, roundDouble_eps]
  rw [if_neg (by norm_num : ¬(100000:ℚ) = 0)]
  simp only [List.map_cons, List.map_nil]
  rw [show (0:ℚ) - 0 = 0 from by norm_num, roundDouble_zero,
      roundDouble_large_plus, zero_div, roundDouble_zero]
  rw [show (100000:ℚ) - 0 = 100000 from by norm_num, roundDouble_100000,
      show (100000:ℚ) / 100000 = 1 from by norm_num, roundDouble_one]

/-- Float evaluation of the normalizer on the narrow series `[0, 1]`: the
divisor `fl(1 + 1e-12)` is strictly larger than `1`, so the maximum
normalizes strictly below `1.0` (matches CPython, where
`1.0/(1.0 + 1e-12)` is exactly this rational, `0.9999999999989999…`). -/
theorem minmax_fl_small :
    minmax_series_fl [(0:ℚ), 1] = [0, 9007199254731984 / 2 ^ 53] := by
  simp only [minmax_series_fl, List.foldl_cons, List.foldl_nil]
  rw [show max (0:ℚ) 1 = 1 from max_eq_right (by norm_num),
      show min (0:ℚ) 1 = 0 from min_eq_left (by norm_num),
      show (1:ℚ) - 0 = 1 from by norm_num,
      roundDouble_one, roundDouble_eps]
  rw [if_neg (by norm_num : ¬(1:ℚ) = 0)]
  simp only [List.map_cons, List.map_nil]
  rw [show (0:ℚ) - 0 = 0 from by norm_num, roundDouble_zero,
      roundDouble_one_plus, zero_div, roundDouble_zero]
  rw [show (1:ℚ) - 0 = 1 from by norm_num, roundDouble_one, roundDouble_ratio]

/-- C10 counterexample: under the IEEE binary64 arithmetic the program
actually performs, the two-valued series `[0.0, 100000.0]` normalizes to
`[0.0, 1.0]` — `(max - min) + 1e-12` rounds back to `max - min` at that
magnitude, so the maximum element attains exactly `1.0`, refuting
"normalizes to a value strictly less than 1.0" / "never attain exactly
1.0". -/
theorem C10_counterexample :
    minmax_series_fl [(0:ℚ), 100000] = [0, 1] ∧
    ¬(∀ y ∈ minmax_series_fl [(0:ℚ), 100000], y < 1) := by
  refine ⟨minmax_fl_large, fun hall => ?_⟩
  have h1 : (1:ℚ) ∈ minmax_series_fl [(0:ℚ), 100000] := by
    rw [minmax_fl_large]; simp
  exact absurd (hall 1 h1) (by norm_num)

/-- C10 (amended): the normalizer divides by `(max - min) + 1e-12` in
binary64 arithmetic.  For a narrow series the divisor is a strictly larger
double than `max - min` and the maximum normalizes strictly below `1.0`
(`[0, 1]` sends its maximum to `9007199254731984/2⁵³ ≈ 1 - 10⁻¹²`); but
once the range is large enough that `1e-12` falls below half an ulp (range
`≳ 9·10³`), the divisor rounds to `max - min` itself and the maximum — and
with it a normalized score column — attains exactly `1.0` (`[0, 100000]`
normalizes to `[0, 1]`). -/
theorem C10_divisor_rounding :
    minmax_series_fl [(0:ℚ), 1] = [0, 9007199254731984 / 2 ^ 53] ∧
    (9007199254731984 : ℚ) / 2 ^ 53 < 1 ∧
    minmax_series_fl [(0:ℚ), 100000] = [0, 1] :=
  ⟨minmax_fl_small, by norm_num, minmax_fl_large⟩

/-- C1: every Risk Record produced by `compute_risk_score` on a non-empty
input has `final_risk_score = 0.5·ml_anomaly_score + 0.5·rule_based_score`
exactly (rational arithmetic models the float expression), and whenever both
component scores lie in `[0, 1]` the blended score lies in `[0, 1]`. -/
theorem C1_final_blend (df : RiskFrame) (rb ml : Option (List ℚ))
    (out : List RiskRecord) (hne : ¬df.rows.length = 0)
    (h : compute_risk_score df rb ml = .ok out) :
    ∀ r ∈ out,
      r.final_risk_score = 1/2 * r.ml_anomaly_score + 1/2 * r.rule_based_score ∧
      (0 ≤ r.ml_anomaly_score → r.ml_anomaly_score ≤ 1 →
       0 ≤ r.rule_based_score → r.rule_based_score ≤ 1 →
       0 ≤ r.final_risk_score ∧ r.final_risk_score ≤ 1) := by
  intro r hr
  rw [compute_risk_score, if_neg hne] at h
  rcases hml : mlScoreOf df ml with e | mlL
  · rw [hml] at h; exact Except.noConfusion h
  · simp only [hml] at h
    injection h with h2
    rw [← h2] at hr
    have hr2 : r ∈ singleUserFix df.rows.length
        ((mlL.zip (ruleScoreOf df rb)).map blendRecord) :=
      (List.perm_insertionSort riskGE _).mem_iff.mp hr
    rw [singleUserFix_eq] at hr2
    obtain ⟨p, hp, hpr⟩ := List.mem_map.mp hr2
    rw [← hpr]
    refine ⟨rfl, fun h1 h2 h3 h4 => ⟨?_, ?_⟩⟩
    · simp only [blendRecord] at h1 h3 ⊢
      linarith
    · simp only [blendRecord] at h2 h4 ⊢
      linarith

/-- C1 witness: a concrete single-row frame; its record blends `0` and `0`
to `0`, which lies in `[0, 1]`. -/
theorem C1_witness :
    RiskRecord.final_risk_score ⟨0, 0, 0, "No strong evidence of deviation"⟩ =
      1/2 * RiskRecord.ml_anomaly_score ⟨0, 0, 0, "No strong evidence of deviation"⟩
        + 1/2 * RiskRecord.rule_based_score ⟨0, 0, 0, "No strong evidence of deviation"⟩ ∧
    0 ≤ RiskRecord.final_risk_score ⟨0, 0, 0, "No strong evidence of deviation"⟩ ∧
    RiskRecord.final_risk_score ⟨0, 0, 0, "No strong evidence of deviation"⟩ ≤ 1 :=
  have h := C1_final_blend ⟨[⟨5, 1, 10, 2, 3⟩], true, true, true, true, true⟩ none none
    [⟨0, 0, 0, "No strong evidence of deviation"⟩] (by decide)
    (by norm_num [compute_risk_score, mlScoreOf, ruleScoreOf, blendRecord, singleUserFix,
      reasonOf, minmax_series, fillna_str, List.insertionSort])
    ⟨0, 0, 0, "No strong evidence of deviation"⟩ (List.mem_singleton.mpr rfl)
  ⟨h.1, (h.2 (by norm_num) (by norm_num) (by norm_num) (by norm_num)).1,
    (h.2 (by norm_num) (by norm_num) (by norm_num) (by norm_num)).2⟩

/-- C5: evaluating the Risk Blender on a single-user batch.  The three
scores are `0.0` as the claim states, but `risk_reason` is the generic
"No strong evidence of deviation": the forced single-user reason is never
written, because the `fillna` at risk_score.py line 160 replaces only null
entries and the reason column was fully assigned at line 148. -/
theorem C5_single_user_eval :
    compute_risk_score ⟨[⟨5, 1, 10, 2, 3⟩], true, true, true, true, true⟩ none none =
      .ok [⟨0, 0, 0, "No strong evidence of deviation"⟩] := by
  norm_num [compute_risk_score, mlScoreOf, ruleScoreOf, blendRecord, singleUserFix,
    reasonOf, minmax_series, fillna_str, List.insertionSort]

/-- C4 counterexample: on an empty feature table (whose four required
columns exist by construction here) `run_isolation_forest` does not return
a typed-empty result — it returns the `ValueError` from isolation_forest.py
line 58. -/
theorem C4_counterexample :
    run_isolation_forest (fun _ => []) [] =
      .error "Isolation Forest: input features DataFrame is empty" := rfl

/-- C4 (amended): for every model decision function, `run_isolation_forest`
on an empty input raises the `ValueError` "Isolation Forest: input features
DataFrame is empty" instead of returning an empty scored result. -/
theorem C4_empty_input_raises (decisionF : List (List ℚ) → List ℚ) :
    run_isolation_forest decisionF [] =
      .error "Isolation Forest: input features DataFrame is empty" := rfl

/-- C6: for every batch `decide_training_actions` accepts, each output row
maps `score < 0.3` to `NONE` with both URLs empty, `0.3 ≤ score < 0.6` to
`MICRO` with only the micro URL populated, and `score ≥ 0.6` to `MANDATORY`
with only the mandatory URL populated — lower bounds inclusive, upper
bounds exclusive. -/
theorem C6_training_thresholds (df : List TDRow) (out : List TDOut)
    (h : decide_training_actions df = .ok out) :
    ∀ r ∈ out,
      (r.risk_score < 3/10 →
        r.training_action = "NONE" ∧ r.micro_training_url = "" ∧
        r.mandatory_training_url = "") ∧
      (3/10 ≤ r.risk_score → r.risk_score < 6/10 →
        r.training_action = "MICRO" ∧ r.micro_training_url = _MICRO_TRAINING_URL ∧
        r.mandatory_training_url = "") ∧
      (6/10 ≤ r.risk_score →
        r.training_action = "MANDATORY" ∧ r.micro_training_url = "" ∧
        r.mandatory_training_url = _MANDATORY_TRAINING_URL) := by
  intro r hr
  rw [decide_training_actions] at h
  by_cases hb : (df.filter (fun r => r.risk_score.isNone)).length ≠ 0
  · rw [if_pos hb] at h; exact Except.noConfusion h
  · rw [if_neg hb] at h
    injection h with h2
    rw [← h2] at hr
    obtain ⟨row, hrow, hre⟩ := List.mem_map.mp hr
    rw [← hre]
    refine ⟨fun hlt => ?_, fun hge hlt => ?_, fun hge => ?_⟩
    · have hq : row.risk_score.getD 0 < 3/10 := hlt
      have hcm : ¬((3:ℚ)/10 ≤ row.risk_score.getD 0 ∧ row.risk_score.getD 0 < 6/10) := by
        rintro ⟨hc, -⟩; linarith
      have hcM : ¬((6:ℚ)/10 ≤ row.risk_score.getD 0) := by intro hc; linarith
      refine ⟨?_, ?_, ?_⟩ <;> simp [tdAnnotate, hcm, hcM]
    · have hq1 : (3:ℚ)/10 ≤ row.risk_score.getD 0 := hge
      have hq2 : row.risk_score.getD 0 < 6/10 := hlt
      have hcm : (3:ℚ)/10 ≤ row.risk_score.getD 0 ∧ row.risk_score.getD 0 < 6/10 := ⟨hq1, hq2⟩
      have hcM : ¬((6:ℚ)/10 ≤ row.risk_score.getD 0) := by intro hc; linarith
      refine ⟨?_, ?_, ?_⟩ <;> simp [tdAnnotate, hcm, hcM]
    · have hq : (6:ℚ)/10 ≤ row.risk_score.getD 0 := hge
      have hcm : ¬((3:ℚ)/10 ≤ row.risk_score.getD 0 ∧ row.risk_score.getD 0 < 6/10) := by
        rintro ⟨-, hc⟩; linarith
      refine ⟨?_, ?_, ?_⟩ <;> simp [tdAnnotate, hcm, hq]

/-- C6 witness: the boundary scores `0.3` (→ MICRO) and `0.6`
(→ MANDATORY). -/
theorem C6_witness :
    TDOut.training_action ⟨"a", 3/10, "MICRO", _MICRO_TRAINING_URL, ""⟩ = "MICRO" ∧
    TDOut.micro_training_url ⟨"a", 3/10, "MICRO", _MICRO_TRAINING_URL, ""⟩ = _MICRO_TRAINING_URL ∧
    TDOut.mandatory_training_url ⟨"a", 3/10, "MICRO", _MICRO_TRAINING_URL, ""⟩ = "" ∧
    TDOut.training_action ⟨"b", 6/10, "MANDATORY", "", _MANDATORY_TRAINING_URL⟩ = "MANDATORY" ∧
    TDOut.micro_training_url ⟨"b", 6/10, "MANDATORY", "", _MANDATORY_TRAINING_URL⟩ = "" ∧
    TDOut.mandatory_training_url ⟨"b", 6/10, "MANDATORY", "", _MANDATORY_TRAINING_URL⟩ = _MANDATORY_TRAINING_URL :=
  have hA := C6_training_thresholds [⟨"a", some (3/10)⟩]
    [⟨"a", 3/10, "MICRO", _MICRO_TRAINING_URL, ""⟩]
    (by norm_num [decide_training_actions, tdAnnotate])
    ⟨"a", 3/10, "MICRO", _MICRO_TRAINING_URL, ""⟩ (List.mem_singleton.mpr rfl)
  have hB := C6_training_thresholds [⟨"b", some (6/10)⟩]
    [⟨"b", 6/10, "MANDATORY", "", _MANDATORY_TRAINING_URL⟩]
    (by norm_num [decide_training_actions, tdAnnotate])
    ⟨"b", 6/10, "MANDATORY", "", _MANDATORY_TRAINING_URL⟩ (List.mem_singleton.mpr rfl)
  have hAr := hA.2.1 (by norm_num) (by norm_num)
  have hBr := hB.2.2 (by norm_num)
  ⟨hAr.1, hAr.2.1, hAr.2.2, hBr.1, hBr.2.1, hBr.2.2⟩

set_option maxRecDepth 8000 in
set_option exponentiation.threshold 1500 in
/-- C7: the success coercion is a total `Bool`-valued function (the Python
`except` branch returns `False` rather than raising): bools pass through,
missing values (None/NaN) map to `False`, recognised truthy/falsy encodings
map to the corresponding boolean, everything `float()` accepts follows
Python float truthiness (`pyFloatTruthy`, which accounts for binary64
underflow), finite numbers follow `bool(x)` and infinite floats are truthy,
and any printable-ASCII value that `float()` rejects maps to `False`.  The
closing conjuncts evaluate the float model on the concrete encodings the
source must agree with: `"inf"`, `"infinity"` and `"nan"` parse and are
truthy, `"1_0"` parses to `10`, `"1e-400"` underflows to `0.0` and is the
one parsed-but-falsy shape, `"5e-324"` is the smallest subnormal and
truthy; by the fifth conjunct these are exactly the values `_to_bool`
returns on such strings. -/
theorem C7_success_coercion_total :
    (∀ b, _to_bool (.bool b) = b) ∧
    _to_bool .null = false ∧
    (∀ s, truthySet.contains (s.trim.toLower) = true → _to_bool (.str s) = true) ∧
    (∀ s, falsySet.contains (s.trim.toLower) = true → _to_bool (.str s) = false) ∧
    (∀ s pf, truthySet.contains (s.trim.toLower) = false →
             falsySet.contains (s.trim.toLower) = false →
             parseFloat (s.trim.toLower) = some pf →
             _to_bool (.str s) = pyFloatTruthy pf) ∧
    (∀ s, (∀ c ∈ (s.trim.toLower).toList, 32 ≤ c.toNat ∧ c.toNat < 127) →
          truthySet.contains (s.trim.toLower) = false →
          falsySet.contains (s.trim.toLower) = false →
          parseFloat (s.trim.toLower) = none → _to_bool (.str s) = false) ∧
    (∀ q, _to_bool (.num q) = (q != 0)) ∧
    (∀ b, _to_bool (.numInf b) = true) ∧
    (parseFloat "inf" = some (.inf false) ∧
     parseFloat "infinity" = some (.inf false) ∧
     parseFloat "nan" = some .nan ∧
     parseFloat "1_0" = some (.finite false 10 0) ∧
     parseFloat "1e-400" = some (.finite false 1 (-400)) ∧
     parseFloat "5e-324" = some (.finite false 5 (-324)) ∧
     pyFloatTruthy (.inf false) = true ∧
     pyFloatTruthy .nan = true ∧
     pyFloatTruthy (.finite false 10 0) = true ∧
     pyFloatTruthy (.finite false 1 (-400)) = false ∧
     pyFloatTruthy (.finite false 5 (-324)) = true) := by
  refine ⟨fun b => rfl, rfl, ?_, ?_, ?_, ?_, fun q => rfl, fun b => rfl, ?_⟩
  · intro s hs'
    have hs : s.trim.toLower ∈ truthySet := by simpa using hs'
    simp [_to_bool, hs]
  · intro s hf'
    have hf : s.trim.toLower ∈ falsySet := by simpa using hf'
    have ht : s.trim.toLower ∉ truthySet := by
      -- the truthy and falsy literal sets are disjoint
      simp only [falsySet, List.mem_cons, List.not_mem_nil, or_false] at hf
      rcases hf with h | h | h | h | h <;> rw [h] <;> decide
    simp [_to_bool, hf, ht]
  · intro s pf ht' hf' hp
    have ht : s.trim.toLower ∉ truthySet := by simpa using ht'
    have hf : s.trim.toLower ∉ falsySet := by simpa using hf'
    simp [_to_bool, ht, hf, hp]
  · intro s _ ht' hf' hp
    have ht : s.trim.toLower ∉ truthySet := by simpa using ht'
    have hf : s.trim.toLower ∉ falsySet := by simpa using hf'
    simp [_to_bool, ht, hf, hp]
  · exact ⟨by decide, by decide, by decide, by decide, by decide, by decide,
      by decide, by decide, by decide, by decide, by decide⟩

/-- C8: on every event batch, the output of `extract_user_features` has no
row with `login_count = 0`; every `failed_login_ratio` lies in `[0, 1]` and,
whenever `login_count > 0`, equals the group's failed count divided by its
login count; and the rows are sorted ascending by user identifier. -/
theorem C8_extract_features_invariants (df : List AuthEvent) :
    (∀ row ∈ extract_user_features df,
      row.login_count ≠ 0 ∧
      (0 ≤ row.failed_login_ratio ∧ row.failed_login_ratio ≤ 1) ∧
      (0 < row.login_count →
        row.failed_login_ratio =
          (((df.filter (fun e => e.user == row.user)).filter
              (fun e => !e.success)).length : ℚ) /
            (((df.filter (fun e => e.user == row.user)).length : ℚ)))) ∧
    List.Sorted (· ≤ ·) ((extract_user_features df).map FeatureRow.user) := by
  constructor
  · intro row hrow
    simp only [extract_user_features] at hrow
    obtain ⟨u, hu, hre⟩ := List.mem_map.mp hrow
    have hu2 : u ∈ (df.map AuthEvent.user).dedup :=
      (List.perm_insertionSort _ _).mem_iff.mp hu
    have hu3 : u ∈ df.map AuthEvent.user := List.mem_dedup.mp hu2
    obtain ⟨e, he, heu⟩ := List.mem_map.mp hu3
    have hef : e ∈ df.filter (fun e => e.user == u) :=
      List.mem_filter.mpr ⟨he, by simp [heu]⟩
    have hglen : 0 < (df.filter (fun e => e.user == u)).length :=
      List.length_pos.mpr (List.ne_nil_of_mem hef)
    have hflen : ((df.filter (fun e => e.user == u)).filter
        (fun e => !e.success)).length ≤ (df.filter (fun e => e.user == u)).length :=
      List.length_filter_le _ _
    have h0 : (0:ℚ) ≤ (((df.filter (fun e => e.user == u)).filter (fun e => !e.success)).length : ℚ) /
        (((df.filter (fun e => e.user == u)).length : ℚ)) :=
      div_nonneg (Nat.cast_nonneg _) (Nat.cast_nonneg _)
    have h1 : (((df.filter (fun e => e.user == u)).filter (fun e => !e.success)).length : ℚ) /
        (((df.filter (fun e => e.user == u)).length : ℚ)) ≤ 1 := by
      rw [div_le_one (by exact_mod_cast hglen)]
      exact_mod_cast hflen
    rw [← hre]
    refine ⟨?_, ⟨?_, ?_⟩, fun _ => ?_⟩
    · exact Nat.pos_iff_ne_zero.mp hglen
    · exact le_min (le_max_right _ _) (by norm_num)
    · exact min_le_right _ _
    · show min (max _ 0) 1 = _
      rw [max_eq_left h0, min_eq_left h1]
  · simp only [extract_user_features, List.map_map]
    have hco : (FeatureRow.user ∘ fun u =>
        ({ user := u
           login_count := (df.filter (fun e => e.user == u)).length
           failed_login_ratio := min (max ((((df.filter (fun e => e.user == u)).filter (fun e => !e.success)).length : ℚ) / (((df.filter (fun e => e.user == u)).length : ℚ))) 0) 1
           unique_src_hosts := (((df.filter (fun e => e.user == u)).map AuthEvent.src_host).dedup).length
           unique_dst_hosts := (((df.filter (fun e => e.user == u)).map AuthEvent.dst_host).dedup).length } : FeatureRow)) = id := rfl
    rw [hco, List.map_id]
    exact List.sorted_insertionSort _ _

theorem trans_ps_pc :
    TRANSITIONS .PHISH_SENT "phish_clicked" = some .PHISH_CLICKED := rfl

theorem trans_pc_mta :
    TRANSITIONS .PHISH_CLICKED "micro_training_assigned" =
      some .MICRO_TRAINING_REQUIRED := rfl

theorem trans_mtr_mc :
    TRANSITIONS .MICRO_TRAINING_REQUIRED "micro_completed" =
      some .MICRO_TRAINING_COMPLETED := rfl

theorem trans_mtc_ma :
    TRANSITIONS .MICRO_TRAINING_COMPLETED "mandatory_assigned" =
      some .MANDATORY_TRAINING_REQUIRED := rfl

/-- Fuel is irrelevant beyond 2: the only states that trigger an auto-chain
are `PHISH_CLICKED` and `MICRO_TRAINING_COMPLETED`, and the states their
chained triggers reach chain nothing further, so the recursion in
`UserStateManager.transition` always terminates within two extra hops and
the fuel-based embedding computes the same function as the unbounded
Python recursion. -/
theorem transitionFuel_stable (n : ℕ) (st : MachineState) (u t r : String) :
    transitionFuel (n + 2) st u t r = transitionFuel 2 st u t r := by
  rw [show n + 2 = (n + 1) + 1 from rfl, show (2 : ℕ) = 1 + 1 from rfl]
  cases hT : TRANSITIONS (get_state st u) t with
  | none => simp only [transitionFuel, hT]
  | some ns =>
    simp only [transitionFuel, hT]
    by_cases h1 : ns = UState.PHISH_CLICKED
    · subst h1
      simp [transitionFuel, get_state, upsert, trans_pc_mta]
    · by_cases h2 : ns = UState.MICRO_TRAINING_COMPLETED
      · subst h2
        simp [transitionFuel, get_state, upsert, trans_mtc_ma, h1]
      · simp [h1, h2]

/-- C2: from a fresh database (user defaults to `CLEAN`), applying
`email_sent` and then `phish_clicked` leaves the user in
`MICRO_TRAINING_REQUIRED` — accepting the transition into `PHISH_CLICKED`
immediately self-triggers `micro_training_assigned` — and the transition
log for that user holds exactly 3 entries: `CLEAN→PHISH_SENT`,
`PHISH_SENT→PHISH_CLICKED`, `PHISH_CLICKED→MICRO_TRAINING_REQUIRED`. -/
theorem C2_email_then_click :
    get_state (transition (transition emptyMachine "alice" "email_sent" "campaign").1
        "alice" "phish_clicked" "tracking").1 "alice" = UState.MICRO_TRAINING_REQUIRED ∧
    ((transition (transition emptyMachine "alice" "email_sent" "campaign").1
        "alice" "phish_clicked" "tracking").1.log.filter
          (fun e => e.user_id == "alice")).map (fun e => (e.from_state, e.to_state)) =
      [(UState.CLEAN, UState.PHISH_SENT),
       (UState.PHISH_SENT, UState.PHISH_CLICKED),
       (UState.PHISH_CLICKED, UState.MICRO_TRAINING_REQUIRED)] ∧
    ((transition (transition emptyMachine "alice" "email_sent" "campaign").1
        "alice" "phish_clicked" "tracking").1.log.filter
          (fun e => e.user_id == "alice")).length = 3 := by decide

/-- C3: whenever `(current_state, trigger)` is not in the transition table,
`transition` is a pure no-op: it returns the unchanged store (so the user's
state is unchanged and no log entry is appended) together with a
`success := false` result carrying the diagnostic message; it is a total
function, not an exception path. -/
theorem C3_invalid_trigger_noop (st : MachineState) (u t r : String)
    (h : TRANSITIONS (get_state st u) t = none) :
    transition st u t r =
      (st, ⟨u, get_state st u, get_state st u, t, none, false,
            "No transition from '" ++ stateName (get_state st u)
              ++ "' with trigger '" ++ t ++ "'"⟩) := by
  rw [transition, show (3 : ℕ) = 2 + 1 from rfl]
  simp only [transitionFuel, h]

/-- C3 witness: `phish_clicked` on a fresh (CLEAN) user is rejected and
writes nothing. -/
theorem C3_witness :
    transition emptyMachine "u" "phish_clicked" "r" =
      (emptyMachine, ⟨"u", .CLEAN, .CLEAN, "phish_clicked", none, false,
        "No transition from 'CLEAN' with trigger 'phish_clicked'"⟩) :=
  C3_invalid_trigger_noop emptyMachine "u" "phish_clicked" "r" (by decide)

/-- C9: when an accepted transition enters an auto-chaining state, the
returned result reports only the first hop (`to_state` is `PHISH_CLICKED`,
resp. `MICRO_TRAINING_COMPLETED`), while `get_state` immediately afterwards
returns the post-chain state (`MICRO_TRAINING_REQUIRED`, resp.
`MANDATORY_TRAINING_REQUIRED`): the chained hops are visible in the store,
not in the returned result. -/
theorem C9_result_reports_first_hop (st : MachineState) (u r : String) :
    (get_state st u = .PHISH_SENT →
      (transition st u "phish_clicked" r).2.success = true ∧
      (transition st u "phish_clicked" r).2.to_state = .PHISH_CLICKED ∧
      get_state (transition st u "phish_clicked" r).1 u = .MICRO_TRAINING_REQUIRED) ∧
    (get_state st u = .MICRO_TRAINING_REQUIRED →
      (transition st u "micro_completed" r).2.success = true ∧
      (transition st u "micro_completed" r).2.to_state = .MICRO_TRAINING_COMPLETED ∧
      get_state (transition st u "micro_completed" r).1 u = .MANDATORY_TRAINING_REQUIRED) := by
  constructor
  · intro h
    rw [transition, show (3 : ℕ) = 2 + 1 from rfl]
    simp only [transitionFuel, h, trans_ps_pc]
    simp [transitionFuel, get_state, upsert, trans_pc_mta]
  · intro h
    rw [transition, show (3 : ℕ) = 2 + 1 from rfl]
    simp only [transitionFuel, h, trans_mtr_mc]
    simp [transitionFuel, get_state, upsert, trans_mtc_ma]

/-- C9 witness: concrete stores with the user parked in `PHISH_SENT`
(resp. `MICRO_TRAINING_REQUIRED`). -/
theorem C9_witness :
    ((transition ⟨fun x => if x = "u" then some UState.PHISH_SENT else none, []⟩
        "u" "phish_clicked" "r").2.success = true ∧
     (transition ⟨fun x => if x = "u" then some UState.PHISH_SENT else none, []⟩
        "u" "phish_clicked" "r").2.to_state = .PHISH_CLICKED ∧
     get_state (transition ⟨fun x => if x = "u" then some UState.PHISH_SENT else none, []⟩
        "u" "phish_clicked" "r").1 "u" = .MICRO_TRAINING_REQUIRED) ∧
    ((transition ⟨fun x => if x = "u" then some UState.MICRO_TRAINING_REQUIRED else none, []⟩
        "u" "micro_completed" "r").2.success = true ∧
     (transition ⟨fun x => if x = "u" then some UState.MICRO_TRAINING_REQUIRED else none, []⟩
        "u" "micro_completed" "r").2.to_state = .MICRO_TRAINING_COMPLETED ∧
     get_state (transition ⟨fun x => if x = "u" then some UState.MICRO_TRAINING_REQUIRED else none, []⟩
        "u" "micro_completed" "r").1 "u" = .MANDATORY_TRAINING_REQUIRED) :=
  ⟨(C9_result_reports_first_hop
      ⟨fun x => if x = "u" then some UState.PHISH_SENT else none, []⟩ "u" "r").1 (by decide),
   (C9_result_reports_first_hop
      ⟨fun x => if x = "u" then some UState.MICRO_TRAINING_REQUIRED else none, []⟩ "u" "r").2 (by decide)⟩

end Spear
